import Mathlib

/-!
Verification of the AIPortfolio retrieval pipeline.

This file gives a shallow embedding, in Lean 4, of the core of the
repository: the chunk-overlap detector, the ingestion pipeline (chunk
loop, metadata construction, registry append), the batch ingestor, the
federated search, and the two HTTP entry points.  External collaborators
(PDF parsing, embedding computation, the vector store, the generation
model) are modelled as function-valued environment fields returning
`Except`, mirroring the fact that each JavaScript collaborator call can
either resolve or throw.  JavaScript strings are modelled as Lean
strings; `Array.prototype.split(" ")` (a non-regex split that keeps
empty segments) is modelled by an explicit character-level splitter so
that every definition evaluates inside the kernel; JavaScript numbers
(vector distances) are modelled as integers, which carry the ordering
the search code relies on.
-/

/-- Splits a character list at every character satisfying `p`, keeping
empty segments. -/
def splitCharsWhen (p : Char → Bool) : List Char → List (List Char)
  | [] => [[]]
  | a :: rest =>
    let r := splitCharsWhen p rest
    if p a then [] :: r
    else
      match r with
      | [] => [[a]]
      | g :: gs => (a :: g) :: gs

/-- Splits a character list at every occurrence of the character `c`,
keeping empty segments, exactly like the non-regex JavaScript
`String.prototype.split` with a one-character separator. -/
def splitCharsOn (c : Char) : List Char → List (List Char) :=
  splitCharsWhen (fun a => a = c)

/-- JavaScript `s.split(sep)` for a one-character separator `sep`. -/
def splitOnChar (c : Char) (s : String) : List String :=
  (splitCharsOn c s.data).map String.mk

/-- JavaScript `text.split(" ")` as used by `findTextOverlap`:
space-separated segments, empty segments kept. -/
def wordsOf (s : String) : List String := splitOnChar ' ' s

/-- JavaScript `arr.join(sep)`. -/
def joinWith (sep : String) : List String → String
  | [] => ""
  | [w] => w
  | w :: ws => w ++ sep ++ joinWith sep ws

/-- JavaScript `words.join(" ")`. -/
def joinWords (ws : List String) : String := joinWith (" ") ws

/-- The last `k` elements of a list: JavaScript `arr.slice(-k)` for
`1 ≤ k ≤ arr.length`. -/
def lastWords (k : Nat) (ws : List String) : List String :=
  ws.drop (ws.length - k)

/-- The candidate suffix of the previous text at window size `k`:
`words1.slice(-k).join(" ")` in the source. -/
def endingAt (w1 : List String) (k : Nat) : String := joinWords (lastWords k w1)

/-- The candidate prefix of the next text at window size `k`:
`words2.slice(0, k).join(" ")` in the source. -/
def beginningAt (w2 : List String) (k : Nat) : String := joinWords (w2.take k)

/-- The loop of `findTextOverlap`, scanning window sizes `1 .. n` and
keeping the matching candidate of maximal character length, starting
from the empty string (`maxOverlap` in the source).  `overlapScan w1 w2 n`
is the value of `maxOverlap` after the iteration `i = n` of the source's
`for` loop. -/
def overlapScan (w1 w2 : List String) : Nat → String
  | 0 => ""
  | n + 1 =>
    let maxOverlap := overlapScan w1 w2 n
    if endingAt w1 (n + 1) = beginningAt w2 (n + 1) ∧
        maxOverlap.length < (endingAt w1 (n + 1)).length
    then endingAt w1 (n + 1) else maxOverlap

/-- `findTextOverlap` from `route.js` lines 142-156: split both texts on
the space character, scan all window sizes `1 ≤ i ≤ min(len, len)`, and
return the longest string that is simultaneously the joined `i`-word
suffix of `text1` and the joined `i`-word prefix of `text2`. -/
def findTextOverlap (text1 text2 : String) : String :=
  overlapScan (wordsOf text1) (wordsOf text2)
    (min (wordsOf text1).length (wordsOf text2).length)

/-- Reference selector for the overlap: scans window sizes from `n`
downward and returns the joined suffix at the largest matching window
size, or the empty string when no window size matches.  This is the
"longest integer k" formulation used by the specification. -/
def largestOverlapBy (w1 w2 : List String) : Nat → String
  | 0 => ""
  | k + 1 =>
    if endingAt w1 (k + 1) = beginningAt w2 (k + 1)
    then endingAt w1 (k + 1) else largestOverlapBy w1 w2 k

/-- The overlap described by the amended claim: the largest-`k` joined
suffix/prefix match where words are the segments of a split on the
single space character. -/
def overlapSpaceTokens (t1 t2 : String) : String :=
  largestOverlapBy (wordsOf t1) (wordsOf t2)
    (min (wordsOf t1).length (wordsOf t2).length)

/-- Tokenization on whitespace as the specification words it: maximal
runs of non-whitespace characters; empty segments are not words. -/
def specWords (s : String) : List String :=
  ((splitCharsWhen Char.isWhitespace s.data).map String.mk).filter (fun w => !w.isEmpty)

/-- The overlap function exactly as the claim states it (spec §4.2):
tokenize both texts on whitespace, and return the single-space join of
the last `k` words of `prev` for the largest `k` such that it equals the
single-space join of the first `k` words of `next`, or the empty string
when no `k ≥ 1` matches. -/
def overlapSpecWS (prev next : String) : String :=
  largestOverlapBy (specWords prev) (specWords next)
    (min (specWords prev).length (specWords next).length)

lemma joinWith_cons_of_ne_nil (sep w : String) (ws : List String) (h : ws ≠ []) :
    joinWith sep (w :: ws) = w ++ sep ++ joinWith sep ws := by
  cases ws with
  | nil => exact absurd rfl h
  | cons a l => rfl

lemma joinWords_cons_length (w : String) (ws : List String) (h : ws ≠ []) :
    (joinWords (w :: ws)).length = w.length + 1 + (joinWords ws).length := by
  rw [joinWords, joinWith_cons_of_ne_nil (" ") w ws h]
  rw [String.length_append, String.length_append]
  rfl

lemma lastWords_length (k : Nat) (ws : List String) (h : k ≤ ws.length) :
    (lastWords k ws).length = k := by
  simp [lastWords]
  omega

lemma lastWords_succ_eq_cons (k : Nat) (ws : List String) (h : k < ws.length) :
    lastWords (k + 1) ws =
      ws.get ⟨ws.length - (k + 1), by omega⟩ :: lastWords k ws := by
  have hlt : ws.length - (k + 1) < ws.length := by omega
  have hdrop := List.drop_eq_getElem_cons hlt
  have harith : ws.length - (k + 1) + 1 = ws.length - k := by omega
  rw [lastWords, hdrop, harith]
  rfl

lemma endingAt_length_lt_succ (w1 : List String) (k : Nat) (h1 : 1 ≤ k)
    (h2 : k < w1.length) :
    (endingAt w1 k).length < (endingAt w1 (k + 1)).length := by
  have hcons := lastWords_succ_eq_cons k w1 h2
  have hne : lastWords k w1 ≠ [] := by
    intro hnil
    have := lastWords_length k w1 (le_of_lt h2)
    rw [hnil] at this
    simp at this
    omega
  rw [endingAt, endingAt, hcons,
    joinWords_cons_length _ _ hne]
  omega

lemma endingAt_length_lt (w1 : List String) (j k : Nat) (hj : 1 ≤ j)
    (hjk : j < k) (hk : k ≤ w1.length) :
    (endingAt w1 j).length < (endingAt w1 k).length := by
  induction k with
  | zero => omega
  | succ k ih =>
    rcases Nat.lt_succ_iff_lt_or_eq.mp hjk with h | h
    · exact lt_trans (ih h (by omega)) (endingAt_length_lt_succ w1 k (by omega) (by omega))
    · subst h
      exact endingAt_length_lt_succ w1 j hj (by omega)

lemma overlapScan_eq_largestOverlapBy (w1 w2 : List String) :
    ∀ n, n ≤ w1.length →
      overlapScan w1 w2 n = largestOverlapBy w1 w2 n ∧
      (overlapScan w1 w2 n = "" ∨
        ∃ j, 1 ≤ j ∧ j ≤ n ∧ overlapScan w1 w2 n = endingAt w1 j ∧
          endingAt w1 j = beginningAt w2 j) ∧
      (∀ k, 1 ≤ k → k ≤ n → endingAt w1 k = beginningAt w2 k →
        (endingAt w1 k).length ≤ (overlapScan w1 w2 n).length) := by
  intro n
  induction n with
  | zero =>
    intro _
    refine ⟨rfl, Or.inl rfl, ?_⟩
    intro k hk1 hk0 _
    omega
  | succ n ih =>
    intro hn
    obtain ⟨heq, hform, hmax⟩ := ih (by omega)
    by_cases hmatch : endingAt w1 (n + 1) = beginningAt w2 (n + 1)
    · by_cases hlen : (overlapScan w1 w2 n).length < (endingAt w1 (n + 1)).length
      · -- the loop updates maxOverlap to the new, longer candidate
        have hstep : overlapScan w1 w2 (n + 1) = endingAt w1 (n + 1) := by
          simp only [overlapScan]
          rw [if_pos ⟨hmatch, hlen⟩]
        have hlargest : largestOverlapBy w1 w2 (n + 1) = endingAt w1 (n + 1) := by
          simp only [largestOverlapBy]
          rw [if_pos hmatch]
        refine ⟨by rw [hstep, hlargest], Or.inr ⟨n + 1, by omega, by omega, hstep, hmatch⟩, ?_⟩
        intro k hk1 hkn hkm
        rw [hstep]
        rcases Nat.lt_succ_iff_lt_or_eq.mp (Nat.lt_succ_of_le hkn) with hlt | hk
        · rcases Nat.lt_succ_iff_lt_or_eq.mp hlt with hlt' | hk'
          · exact le_of_lt (lt_of_le_of_lt (hmax k hk1 (by omega) hkm) hlen)
          · subst hk'
            exact le_of_lt (lt_of_le_of_lt (hmax k hk1 (by omega) hkm) hlen)
        · subst hk
          exact le_refl _
      · -- a matching candidate whose length does not exceed the stored one:
        -- only possible when both are empty
        have hempty : overlapScan w1 w2 n = "" := by
          rcases hform with h0 | ⟨j, hj1, hjn, hjeq, hjm⟩
          · exact h0
          · exfalso
            have := endingAt_length_lt w1 j (n + 1) hj1 (by omega) (by omega)
            rw [← hjeq] at this
            omega
        have hlen0 : (endingAt w1 (n + 1)).length = 0 := by
          rw [hempty] at hlen
          simp at hlen
          omega
        have hcand : endingAt w1 (n + 1) = "" := by
          apply String.ext
          exact List.length_eq_zero.mp hlen0
        have hstep : overlapScan w1 w2 (n + 1) = overlapScan w1 w2 n := by
          simp only [overlapScan]
          rw [if_neg]
          intro hcontra
          exact hlen hcontra.2
        have hlargest : largestOverlapBy w1 w2 (n + 1) = endingAt w1 (n + 1) := by
          simp only [largestOverlapBy]
          rw [if_pos hmatch]
        refine ⟨?_, ?_, ?_⟩
        · rw [hstep, hlargest, hempty, hcand]
        · exact Or.inl (by rw [hstep, hempty])
        · intro k hk1 hkn hkm
          rw [hstep, hempty]
          rcases Nat.lt_succ_iff_lt_or_eq.mp (Nat.lt_succ_of_le hkn) with hlt | hk
          · have := hmax k hk1 (by omega) hkm
            rw [hempty] at this
            exact this
          · subst hk
            simp [hlen0]
    · -- no match at this window size: nothing changes
      have hstep : overlapScan w1 w2 (n + 1) = overlapScan w1 w2 n := by
        simp only [overlapScan]
        rw [if_neg]
        intro hcontra
        exact hmatch hcontra.1
      have hlargest : largestOverlapBy w1 w2 (n + 1) = largestOverlapBy w1 w2 n := by
        simp only [largestOverlapBy]
        rw [if_neg hmatch]
      refine ⟨by rw [hstep, hlargest, heq], ?_, ?_⟩
      · rcases hform with h0 | ⟨j, hj1, hjn, hjeq, hjm⟩
        · exact Or.inl (by rw [hstep, h0])
        · exact Or.inr ⟨j, hj1, by omega, by rw [hstep, hjeq], hjm⟩
      · intro k hk1 hkn hkm
        rcases Nat.lt_succ_iff_lt_or_eq.mp (Nat.lt_succ_of_le hkn) with hlt | hk
        · rw [hstep]
          exact hmax k hk1 (by omega) hkm
        · subst hk
          exact absurd hkm hmatch

/-- C2 (amended): for every pair of strings, `findTextOverlap` returns
the single-space join of the last `k` words of `prev` for the largest
`1 ≤ k ≤ min(len, len)` at which that join equals the join of the first
`k` words of `next` (empty string when no `k` matches) — where the
words of a text are the segments produced by splitting it on the single
space character (consecutive spaces yield empty words, and non-space
whitespace stays inside a word).  In particular
`findTextOverlap "the quick brown fox" "brown fox jumps" = "brown fox"`. -/
theorem findTextOverlap_eq_largest_space_token_overlap :
    (∀ t1 t2, findTextOverlap t1 t2 = overlapSpaceTokens t1 t2) ∧
    findTextOverlap ("the quick brown fox") ("brown fox jumps") = ("brown fox") := by
  constructor
  · intro t1 t2
    exact (overlapScan_eq_largestOverlapBy (wordsOf t1) (wordsOf t2)
      (min (wordsOf t1).length (wordsOf t2).length) (Nat.min_le_left _ _)).1
  · decide

/-- C2 (counterexample): the claim describes the words of a text as its
whitespace tokens.  On `prev = "brown  fox"` (two spaces) and
`next = "brown fox jumps"`, the last two words of `prev` joined by
single spaces equal the first two words of `next` joined by single
spaces (`"brown fox"`), so the claim requires the result `"brown fox"`;
the code, which splits on the space character and keeps empty segments,
returns `""`. -/
theorem findTextOverlap_whitespace_tokenization_counterexample :
    findTextOverlap ("brown  fox") ("brown fox jumps") = ("") ∧
    overlapSpecWS ("brown  fox") ("brown fox jumps") = ("brown fox") ∧
    findTextOverlap ("brown  fox") ("brown fox jumps") ≠
      overlapSpecWS ("brown  fox") ("brown fox jumps") := by
  refine ⟨by decide, by decide, by decide⟩

/-- True when the JavaScript guard
`!chunkText || chunkText.trim().length === 0` holds: the string is empty
or consists only of whitespace. -/
def isBlank (s : String) : Bool := s.data.all Char.isWhitespace

/-- JavaScript `s.toLowerCase()` restricted to its ASCII behaviour. -/
def lowerCase (s : String) : String := String.mk (s.data.map Char.toLower)

/-- `path.basename`: the last `/`-separated component of a path. -/
def basename (p : String) : String := (splitOnChar '/' p).getLastD p

/-- JavaScript `fileName.replace(/\.[^/.]+$/, "")`: drops a final
dot-extension when one is present. -/
def stripExt (s : String) : String :=
  let parts := splitOnChar '.' s
  let lastPart := parts.getLastD ("")
  if parts.length ≥ 2 ∧ lastPart ≠ ("") ∧ !lastPart.data.contains '/'
  then joinWith (".") parts.dropLast else s

/-- The provenance label derived in `processSinglePDF` lines 162-168:
the token before the first underscore when the filename contains an
underscore, otherwise the whole filename, lower-cased. -/
def sourceLabel (fileName : String) : String :=
  let parts := splitOnChar '_' fileName
  if parts.length > 1 then lowerCase (parts.headD ("")) else lowerCase fileName

/-- The metadata stored with each chunk (`metadatas.push` in
`processSinglePDF`). -/
structure ChunkMetadata where
  chunkIndex : Nat
  fileName : String
  totalChunksInFile : Nat
  wordCount : Nat
  previousChunk : String
  nextChunk : String
  hasOverlap : Bool
  overlapWith : String
  overlapLength : Nat
  source : String
deriving DecidableEq, Inhabited, Repr

/-- The `overlapInfo` computation of `processSinglePDF` lines 234-246:
for a chunk at position `i > 0`, read the text of the raw chunk `i - 1`,
and when it is a non-empty string whose overlap with the current chunk
exceeds 20 characters, record the overlap. -/
def overlapInfoFor (documents : List String) (i : Nat) (chunkText : String) :
    Option (String × Nat) :=
  if i = 0 then none
  else if documents.getD (i - 1) ("") = ("") then none
  else if 20 < (findTextOverlap (documents.getD (i - 1) ("")) chunkText).length then
    some (("chunk_") ++ toString (i - 1),
      (findTextOverlap (documents.getD (i - 1) ("")) chunkText).length)
  else none

/-- Projects an optional overlap record onto the three metadata fields
`hasOverlap`, `overlapWith` and `overlapLength`, with the defaults used
by the source when no overlap is recorded. -/
def overlapFields : Option (String × Nat) → Bool × String × Nat
  | none => (false, (""), 0)
  | some (w, n) => (true, w, n)

/-- The metadata record pushed for the non-empty chunk at position `i`
(`processSinglePDF` lines 251-262). -/
def mkMetadata (documents : List String) (fileName source : String) (i : Nat)
    (chunkText : String) : ChunkMetadata :=
  let oi := overlapInfoFor documents i chunkText
  { chunkIndex := i
    fileName := fileName
    totalChunksInFile := documents.length
    wordCount := (wordsOf chunkText).length
    previousChunk := if 0 < i then ("chunk_") ++ toString (i - 1) else ("")
    nextChunk := if i < documents.length - 1 then ("chunk_") ++ toString (i + 1) else ("")
    hasOverlap := (overlapFields oi).1
    overlapWith := (overlapFields oi).2.1
    overlapLength := (overlapFields oi).2.2
    source := source }

/-- One accumulated chunk: the parallel `ids` / `metadatas` / `docTexts`
/ `embeddings` entries of `processSinglePDF`, collected into a record.
Embedding vectors are abstracted as plain values of type `Nat`. -/
structure StoredChunk where
  id : String
  metadata : ChunkMetadata
  text : String
  embedding : Nat
deriving DecidableEq, Inhabited, Repr

deriving instance DecidableEq for Except

/-- The chunk loop of `processSinglePDF` (lines 217-263) over the listed
positions: skip blank chunks, call the embedding collaborator for the
others (its failure aborts the whole file, mirroring the thrown
exception), and accumulate id, metadata, text and embedding in order. -/
def processChunksFrom (embed : String → Except String Nat)
    (documents : List String) (fileName source : String) :
    List Nat → Except String (List StoredChunk)
  | [] => Except.ok []
  | i :: rest =>
    let t := documents.getD i ("")
    if isBlank t then processChunksFrom embed documents fileName source rest
    else
      match embed t with
      | Except.error e => Except.error e
      | Except.ok v =>
        match processChunksFrom embed documents fileName source rest with
        | Except.error e => Except.error e
        | Except.ok l =>
          Except.ok ({ id := ("chunk_") ++ toString i
                       metadata := mkMetadata documents fileName source i t
                       text := t
                       embedding := v } :: l)

/-- The chunk loop of `processSinglePDF` over the whole extraction
sequence `0 .. documents.length - 1`. -/
def processChunks (embed : String → Except String Nat)
    (documents : List String) (fileName source : String) :
    Except String (List StoredChunk) :=
  processChunksFrom embed documents fileName source (List.range documents.length)

/-- The position of the immediately preceding non-empty (stored) chunk,
as the claim describes it: the largest `j < i` whose text is not blank. -/
def prevNonEmptyIndex (documents : List String) (i : Nat) : Option Nat :=
  ((List.range i).filter (fun j => !isBlank (documents.getD j ("")))).getLast?

/-- The overlap record the claim calls for: computed against the
immediately preceding non-empty chunk processed so far rather than the
raw predecessor. -/
def specOverlapInfoFor (documents : List String) (i : Nat) (chunkText : String) :
    Option (String × Nat) :=
  match prevNonEmptyIndex documents i with
  | none => none
  | some j =>
    let overlap := findTextOverlap (documents.getD j ("")) chunkText
    if 20 < overlap.length then
      some (("chunk_") ++ toString j, overlap.length)
    else none

lemma processChunksFrom_mem (embed : String → Except String Nat)
    (docs : List String) (fn src : String) :
    ∀ (is : List Nat) (l : List StoredChunk) (c : StoredChunk),
      processChunksFrom embed docs fn src is = Except.ok l → c ∈ l →
      ∃ i, i ∈ is ∧ isBlank (docs.getD i ("")) = false ∧
        c.text = docs.getD i ("") ∧
        c.metadata = mkMetadata docs fn src i (docs.getD i ("")) := by
  intro is
  induction is with
  | nil =>
    intro l c h hc
    simp only [processChunksFrom] at h
    cases h
    simp at hc
  | cons i rest ih =>
    intro l c h hc
    simp only [processChunksFrom] at h
    by_cases hb : isBlank (docs.getD i ("")) = true
    · rw [if_pos hb] at h
      obtain ⟨j, hj, hjb, hjt, hjm⟩ := ih l c h hc
      exact ⟨j, List.mem_cons_of_mem i hj, hjb, hjt, hjm⟩
    · rw [if_neg hb] at h
      cases hev : embed (docs.getD i ("")) with
      | error e => rw [hev] at h; simp at h
      | ok v =>
        rw [hev] at h
        cases hrec : processChunksFrom embed docs fn src rest with
        | error e => rw [hrec] at h; simp at h
        | ok l' =>
          rw [hrec] at h
          have hl := Except.ok.inj h
          subst hl
          rcases List.mem_cons.mp hc with hceq | hcmem
          · subst hceq
            exact ⟨i, List.mem_cons_self i rest, Bool.eq_false_iff.mpr hb, rfl, rfl⟩
          · obtain ⟨j, hj, hjb, hjt, hjm⟩ := ih l' c hrec hcmem
            exact ⟨j, List.mem_cons_of_mem i hj, hjb, hjt, hjm⟩

lemma processChunks_mem (embed : String → Except String Nat)
    (docs : List String) (fn src : String) (l : List StoredChunk)
    (c : StoredChunk) (h : processChunks embed docs fn src = Except.ok l)
    (hc : c ∈ l) :
    ∃ i, i ∈ List.range docs.length ∧ isBlank (docs.getD i ("")) = false ∧
      c.text = docs.getD i ("") ∧
      c.metadata = mkMetadata docs fn src i (docs.getD i ("")) :=
  processChunksFrom_mem embed docs fn src (List.range docs.length) l c h hc

/-- C9 (confirmed): in every stored chunk's metadata, a positive
`overlapLength` implies `hasOverlap = true` and an overlap strictly
longer than 20 characters; and whenever the overlap the code detects
against the raw predecessor is 20 characters or shorter, the chunk is
recorded with `hasOverlap = false`, `overlapWith = ""` and
`overlapLength = 0`. -/
theorem processChunks_overlap_threshold_invariant
    (embed : String → Except String Nat) (docs : List String)
    (fn src : String) (l : List StoredChunk) (c : StoredChunk)
    (h : processChunks embed docs fn src = Except.ok l) (hc : c ∈ l) :
    (0 < c.metadata.overlapLength →
      c.metadata.hasOverlap = true ∧ 20 < c.metadata.overlapLength) ∧
    ((findTextOverlap (docs.getD (c.metadata.chunkIndex - 1) ("")) c.text).length ≤ 20 →
      c.metadata.hasOverlap = false ∧ c.metadata.overlapWith = ("") ∧
        c.metadata.overlapLength = 0) := by
  obtain ⟨i, _, _, hjt, hjm⟩ := processChunks_mem embed docs fn src l c h hc
  rw [hjt, hjm]
  have hidx : (mkMetadata docs fn src i (docs.getD i (""))).chunkIndex = i := rfl
  have hov : (mkMetadata docs fn src i (docs.getD i (""))).hasOverlap =
      (overlapFields (overlapInfoFor docs i (docs.getD i ("")))).1 := rfl
  have hw : (mkMetadata docs fn src i (docs.getD i (""))).overlapWith =
      (overlapFields (overlapInfoFor docs i (docs.getD i ("")))).2.1 := rfl
  have hl : (mkMetadata docs fn src i (docs.getD i (""))).overlapLength =
      (overlapFields (overlapInfoFor docs i (docs.getD i ("")))).2.2 := rfl
  rw [hidx, hov, hw, hl]
  by_cases hi0 : i = 0
  · have hoi : overlapInfoFor docs i (docs.getD i ("")) = none := by
      simp only [overlapInfoFor]
      rw [if_pos hi0]
    rw [hoi]
    exact ⟨fun hx => absurd hx (by simp [overlapFields]), fun _ => ⟨rfl, rfl, rfl⟩⟩
  · by_cases hprev : docs.getD (i - 1) ("") = ("")
    · have hoi : overlapInfoFor docs i (docs.getD i ("")) = none := by
        simp only [overlapInfoFor]
        rw [if_neg hi0, if_pos hprev]
      rw [hoi]
      exact ⟨fun hx => absurd hx (by simp [overlapFields]), fun _ => ⟨rfl, rfl, rfl⟩⟩
    · by_cases hlen :
        20 < (findTextOverlap (docs.getD (i - 1) ("")) (docs.getD i (""))).length
      · have hoi : overlapInfoFor docs i (docs.getD i ("")) =
            some (("chunk_") ++ toString (i - 1),
              (findTextOverlap (docs.getD (i - 1) ("")) (docs.getD i (""))).length) := by
          simp only [overlapInfoFor]
          rw [if_neg hi0, if_neg hprev, if_pos hlen]
        rw [hoi]
        exact ⟨fun _ => ⟨rfl, hlen⟩, fun hle => absurd hlen (by omega)⟩
      · have hoi : overlapInfoFor docs i (docs.getD i ("")) = none := by
          simp only [overlapInfoFor]
          rw [if_neg hi0, if_neg hprev, if_neg hlen]
        rw [hoi]
        exact ⟨fun hx => absurd hx (by simp [overlapFields]), fun _ => ⟨rfl, rfl, rfl⟩⟩

/-- Embedding collaborator that always succeeds, used for concrete runs
of the chunk loop. -/
def embedZero : String → Except String Nat := fun _ => Except.ok 0

/-- Extraction sequence with a blank middle chunk, whose first and last
chunks share the 25-character boundary `"gamma delta epsilon omega"`. -/
def docsC9 : List String :=
  [("alpha beta gamma delta epsilon omega"), (""),
   ("gamma delta epsilon omega tail")]

/-- The stored chunk produced for position 2 of `docsC9` (the second
surviving chunk; position 1 is blank and skipped). -/
def c9sample : StoredChunk :=
  ((processChunks embedZero docsC9 ("f.pdf") ("alpha")).toOption.getD []).getD 1 default

theorem processChunks_overlap_threshold_invariant_witness :
    (0 < c9sample.metadata.overlapLength →
      c9sample.metadata.hasOverlap = true ∧ 20 < c9sample.metadata.overlapLength) ∧
    ((findTextOverlap (docsC9.getD (c9sample.metadata.chunkIndex - 1) ("")) c9sample.text).length ≤ 20 →
      c9sample.metadata.hasOverlap = false ∧ c9sample.metadata.overlapWith = ("") ∧
        c9sample.metadata.overlapLength = 0) :=
  processChunks_overlap_threshold_invariant embedZero docsC9 ("f.pdf") ("alpha")
    ((processChunks embedZero docsC9 ("f.pdf") ("alpha")).toOption.getD [])
    c9sample (by decide) (by decide)

/-- C3 (amended): the overlap recorded for a stored chunk at position
`i > 0` is computed against the raw chunk at position `i - 1` of the
extraction sequence.  When that raw predecessor's text is the empty
string — for instance because it was an empty chunk that ingestion
skipped — no overlap is recorded, even if the immediately preceding
non-empty chunk overlaps the current one by more than 20 characters;
a whitespace-only (skipped but non-empty) predecessor does take part. -/
theorem processChunks_overlap_uses_raw_predecessor
    (embed : String → Except String Nat) (docs : List String)
    (fn src : String) (l : List StoredChunk) (c : StoredChunk)
    (h : processChunks embed docs fn src = Except.ok l) (hc : c ∈ l) :
    (c.metadata.hasOverlap, c.metadata.overlapWith, c.metadata.overlapLength) =
      overlapFields (overlapInfoFor docs c.metadata.chunkIndex c.text) := by
  obtain ⟨i, _, _, hjt, hjm⟩ := processChunks_mem embed docs fn src l c h hc
  rw [hjt, hjm]
  rfl

/-- The stored chunk produced for position 2 of `docsC9` under an
always-succeeding embedding collaborator, used to exercise the overlap
bookkeeping of the chunk loop on a concrete input. -/
def c3sample : StoredChunk :=
  ((processChunks embedZero docsC9 ("f.pdf") ("alpha")).toOption.getD []).getD 1 default

theorem processChunks_overlap_uses_raw_predecessor_witness :
    (c3sample.metadata.hasOverlap, c3sample.metadata.overlapWith,
      c3sample.metadata.overlapLength) =
      overlapFields (overlapInfoFor docsC9 c3sample.metadata.chunkIndex c3sample.text) :=
  processChunks_overlap_uses_raw_predecessor embedZero docsC9 ("f.pdf") ("alpha")
    ((processChunks embedZero docsC9 ("f.pdf") ("alpha")).toOption.getD [])
    c3sample (by decide) (by decide)

/-- C3 (counterexample): in `docsC9` the chunk at position 1 is empty
and skipped, so the immediately preceding non-empty chunk processed
before position 2 is position 0, whose 25-character overlap
`"gamma delta epsilon omega"` with chunk 2 exceeds the threshold; the
claim therefore requires chunk 2's metadata to record that overlap.
The code instead reads the raw predecessor (the empty chunk 1) and
records no overlap at all. -/
theorem overlap_raw_predecessor_counterexample :
    c3sample.metadata.chunkIndex = 2 ∧
    (c3sample.metadata.hasOverlap, c3sample.metadata.overlapWith,
      c3sample.metadata.overlapLength) = (false, (""), 0) ∧
    specOverlapInfoFor docsC9 2 (docsC9.getD 2 ("")) = some (("chunk_0"), 25) ∧
    overlapFields (specOverlapInfoFor docsC9 2 (docsC9.getD 2 (""))) ≠
      (c3sample.metadata.hasOverlap, c3sample.metadata.overlapWith,
        c3sample.metadata.overlapLength) := by
  refine ⟨by decide, by decide, by decide, by decide⟩

/-- Environment of an ingestion run: the external collaborators of
`processSinglePDF` / `initialize` and the two filesystem failure modes
that the source catches internally.  `deleteFails` models
`fs.unlinkSync` throwing inside `clearCollectionsFile`; `appendFails`
models `fs.appendFileSync` throwing inside `saveCollectionName`;
`files` is the flattened result of the `getAllFiles` directory walk;
`nameSuffix` abstracts the `timestamp_random` tail produced by
`generateCollectionName`. -/
structure IngestEnv where
  deleteFails : Bool
  appendFails : Bool
  files : List String
  parse : String → Except String (List String)
  embed : String → Except String Nat
  createCollection : String → Except String Unit
  addChunks : String → List StoredChunk → Except String Unit
  nameSuffix : String

/-- The collection name generated for a file:
`generateCollectionName("doc_" + stem)` = `doc_<stem>_<timestamp>_<random>`,
with the timestamp/random tail abstracted as `env.nameSuffix`. -/
def generatedName (env : IngestEnv) (filePath : String) : String :=
  ("doc_") ++ stripExt (basename filePath) ++ ("_") ++ env.nameSuffix

/-- `processSinglePDF` (lines 158-282): derive the filename, provenance
label and collection name; create the collection; parse; run the chunk
loop; when at least one chunk survived, batch-add the chunks and append
`<name>|document:<fileName>` to the registry (`saveCollectionName`,
which catches its own append errors).  Any exception escaping the body
is caught and turned into a `none` result with the registry unchanged.
The registry is threaded explicitly as the list of appended
`(collection id, source)` records. -/
def processSinglePDF (env : IngestEnv) (registry : List (String × String))
    (filePath : String) : Option String × List (String × String) :=
  let fileName := basename filePath
  let src := sourceLabel fileName
  let collectionName := generatedName env filePath
  match env.createCollection collectionName with
  | Except.error _ => (none, registry)
  | Except.ok _ =>
    match env.parse filePath with
    | Except.error _ => (none, registry)
    | Except.ok documents =>
      match processChunks env.embed documents fileName src with
      | Except.error _ => (none, registry)
      | Except.ok stored =>
        if stored.isEmpty then (some collectionName, registry)
        else
          match env.addChunks collectionName stored with
          | Except.error _ => (none, registry)
          | Except.ok _ =>
            (some collectionName,
              if env.appendFails then registry
              else registry ++ [(collectionName, ("document:") ++ fileName)])

/-- `processAllPDFs` (lines 284-295): drive `processSinglePDF` once per
file, in order, collecting the non-`null` collection names. -/
def processAllPDFs (env : IngestEnv) (registry : List (String × String)) :
    List String → List String × List (String × String)
  | [] => ([], registry)
  | f :: rest =>
    let r := processSinglePDF env registry f
    let r2 := processAllPDFs env r.2 rest
    (match r.1 with
     | some n => n :: r2.1
     | none => r2.1, r2.2)

/-- `clearCollectionsFile` (lines 117-126): delete the registry file;
a thrown filesystem error is caught and logged, so on failure the stale
registry survives and the function still returns normally. -/
def clearCollectionsFile (env : IngestEnv)
    (registry : List (String × String)) : List (String × String) :=
  if env.deleteFails then registry else []

/-- `initialize` (lines 436-442): reset the registry, then run the
batch ingestor over the discovered files. -/
def runIngestion (env : IngestEnv) (registry : List (String × String)) :
    List String × List (String × String) :=
  processAllPDFs env (clearCollectionsFile env registry) env.files

lemma processSinglePDF_registry_cases (env : IngestEnv)
    (registry : List (String × String)) (f : String) :
    (processSinglePDF env registry f).2 = registry ∨
    (processSinglePDF env registry f).2 =
      registry ++ [(generatedName env f, ("document:") ++ basename f)] := by
  simp only [processSinglePDF]
  split
  · left; rfl
  · split
    · left; rfl
    · split
      · left; rfl
      · split
        · left; rfl
        · split
          · left; rfl
          · by_cases ha : env.appendFails = true
            · left; simp [ha]
            · right; simp [ha]

lemma processSinglePDF_registry_extends (env : IngestEnv)
    (registry : List (String × String)) (f : String) :
    ∃ t, registry ++ t = (processSinglePDF env registry f).2 := by
  rcases processSinglePDF_registry_cases env registry f with h | h
  · exact ⟨[], by rw [List.append_nil, h]⟩
  · exact ⟨[(generatedName env f, ("document:") ++ basename f)], h.symm⟩

lemma processAllPDFs_registry_extends (env : IngestEnv) :
    ∀ (files : List String) (registry : List (String × String)),
      List.IsPrefix registry (processAllPDFs env registry files).2 := by
  intro files
  induction files with
  | nil => intro registry; exact ⟨[], by simp [processAllPDFs]⟩
  | cons f rest ih =>
    intro registry
    have h1 : List.IsPrefix registry (processSinglePDF env registry f).2 := by
      obtain ⟨t, ht⟩ := processSinglePDF_registry_extends env registry f
      exact ⟨t, ht⟩
    have h2 := ih (processSinglePDF env registry f).2
    have h3 : (processAllPDFs env registry (f :: rest)).2 =
        (processAllPDFs env (processSinglePDF env registry f).2 rest).2 := by
      simp only [processAllPDFs]
    rw [h3]
    exact h1.trans h2

/-- Ingestion environment whose registry-file delete throws: one
parseable file, all other collaborators succeed. -/
def envC4 : IngestEnv :=
  { deleteFails := true
    appendFails := false
    files := [("doc/Resume_Jay.pdf")]
    parse := fun _ => Except.ok [("hello world this is content")]
    embed := fun _ => Except.ok 0
    createCollection := fun _ => Except.ok ()
    addChunks := fun _ _ => Except.ok ()
    nameSuffix := ("1712345_ab12cd") }

/-- A stale registry left over from an earlier corpus generation. -/
def regStale : List (String × String) := [(("coll_old"), ("document:Old.pdf"))]

/-- C4 (counterexample): with the registry delete failing,
`clearCollectionsFile` catches the error and `initialize` carries on:
the single file is processed (one collection id is collected) and its
record is appended on top of the preserved stale registry, so the
ingestion run does not abort. -/
theorem runIngestion_reset_failure_counterexample :
    envC4.deleteFails = true ∧
    (runIngestion envC4 regStale).1 = [("doc_Resume_Jay_1712345_ab12cd")] ∧
    (runIngestion envC4 regStale).2 =
      regStale ++ [(("doc_Resume_Jay_1712345_ab12cd"), ("document:Resume_Jay.pdf"))] ∧
    (runIngestion envC4 regStale).2 ≠ regStale := by
  refine ⟨rfl, by decide, by decide, by decide⟩

/-- C4 (amended): a failure of the registry reset is caught and logged
inside `clearCollectionsFile`, and ingestion proceeds instead of
aborting: the run behaves exactly as if no reset had been attempted —
every discovered file is processed against the stale registry, which
survives as a prefix of the final registry with the new records appended
after it. -/
theorem runIngestion_proceeds_on_reset_failure (env : IngestEnv)
    (registry : List (String × String)) (h : env.deleteFails = true) :
    runIngestion env registry = processAllPDFs env registry env.files ∧
    List.IsPrefix registry (runIngestion env registry).2 := by
  have hclear : clearCollectionsFile env registry = registry := by
    simp [clearCollectionsFile, h]
  constructor
  · rw [runIngestion, hclear]
  · rw [runIngestion, hclear]
    exact processAllPDFs_registry_extends env env.files registry

theorem runIngestion_proceeds_on_reset_failure_witness :
    runIngestion envC4 regStale = processAllPDFs envC4 regStale envC4.files ∧
    List.IsPrefix regStale (runIngestion envC4 regStale).2 :=
  runIngestion_proceeds_on_reset_failure envC4 regStale rfl

/-- Ingestion environment whose parser yields a single whitespace-only
chunk, so that the chunk loop stores nothing. -/
def envC5 : IngestEnv :=
  { deleteFails := false
    appendFails := false
    files := [("f.pdf")]
    parse := fun _ => Except.ok [(" ")]
    embed := fun _ => Except.ok 0
    createCollection := fun _ => Except.ok ()
    addChunks := fun _ _ => Except.ok ()
    nameSuffix := ("1712345_ab12cd") }

/-- C5 (counterexample): a file whose extraction yields zero non-empty
chunks is a fatal failure according to the claim, so `processSinglePDF`
should return the absence sentinel; the code instead falls through to
`return collectionName` and hands the batch caller the id of the
abandoned, unregistered collection. -/
theorem processSinglePDF_zero_chunk_counterexample :
    envC5.parse ("f.pdf") = Except.ok [(" ")] ∧
    processChunks envC5.embed [(" ")] (basename ("f.pdf"))
      (sourceLabel (basename ("f.pdf"))) = Except.ok [] ∧
    (processSinglePDF envC5 [] ("f.pdf")).1 = some (("doc_f_1712345_ab12cd")) ∧
    (processSinglePDF envC5 [] ("f.pdf")).1 ≠ none := by
  refine ⟨by decide, by decide, by decide, by decide⟩

/-- C5 (amended): `processSinglePDF` returns `none` exactly when an
exception escapes its body — collection creation, parsing, or an
embedding failure inside the chunk loop (and a batch-add failure) — and
otherwise returns the generated collection id.  In particular a file
with zero surviving chunks returns the id (with no registry append),
and a registry-append failure is caught inside `saveCollectionName`, so
the id is returned and the registry is simply left unchanged. -/
theorem processSinglePDF_return_contract (env : IngestEnv)
    (registry : List (String × String)) (f : String) :
    ((processSinglePDF env registry f).1 = none ∨
      (processSinglePDF env registry f).1 = some (generatedName env f)) ∧
    (∀ e, env.createCollection (generatedName env f) = Except.error e →
      processSinglePDF env registry f = (none, registry)) ∧
    (∀ e, env.createCollection (generatedName env f) = Except.ok () →
      env.parse f = Except.error e →
      processSinglePDF env registry f = (none, registry)) ∧
    (∀ docs, env.createCollection (generatedName env f) = Except.ok () →
      env.parse f = Except.ok docs →
      processChunks env.embed docs (basename f) (sourceLabel (basename f)) =
        Except.ok [] →
      processSinglePDF env registry f = (some (generatedName env f), registry)) ∧
    (∀ docs stored, env.createCollection (generatedName env f) = Except.ok () →
      env.parse f = Except.ok docs →
      processChunks env.embed docs (basename f) (sourceLabel (basename f)) =
        Except.ok stored →
      stored ≠ [] → env.addChunks (generatedName env f) stored = Except.ok () →
      env.appendFails = true →
      processSinglePDF env registry f = (some (generatedName env f), registry)) := by
  refine ⟨?_, ?_, ?_, ?_, ?_⟩
  · simp only [processSinglePDF]
    split
    · left; rfl
    · split
      · left; rfl
      · split
        · left; rfl
        · split
          · right; rfl
          · split
            · left; rfl
            · right; rfl
  · intro e hcc
    simp only [processSinglePDF]
    rw [hcc]
  · intro e hcc hp
    simp only [processSinglePDF]
    rw [hcc, hp]
  · intro docs hcc hp hchunks
    simp [processSinglePDF, hcc, hp, hchunks]
  · intro docs stored hcc hp hchunks hne hadd happ
    have hie : stored.isEmpty = false := by
      cases stored with
      | nil => exact absurd rfl hne
      | cons a l => rfl
    simp [processSinglePDF, hcc, hp, hchunks, hie, hadd, happ]

theorem processSinglePDF_return_contract_witness :
    processSinglePDF envC5 [] ("f.pdf") = (some (generatedName envC5 ("f.pdf")), []) :=
  (processSinglePDF_return_contract envC5 [] ("f.pdf")).2.2.2.1
    [(" ")] rfl rfl (by decide)

/-- Ingestion environment used to exhibit the registry record written
for a successfully stored file. -/
def envC6 : IngestEnv :=
  { deleteFails := false
    appendFails := false
    files := []
    parse := fun _ => Except.ok [("hello world this is content")]
    embed := fun _ => Except.ok 0
    createCollection := fun _ => Except.ok ()
    addChunks := fun _ _ => Except.ok ()
    nameSuffix := ("1712345_ab12cd") }

/-- C6 (counterexample): ingesting `doc/Resume_Jay.pdf` appends a
record whose source field is `"document:Resume_Jay.pdf"` — the literal
string `"document:"` followed by the verbatim filename — while the
claim requires the lower-cased pre-underscore label `"resume"`.
The derived label exists but is only stored in chunk metadata. -/
theorem registry_source_label_counterexample :
    sourceLabel (basename ("doc/Resume_Jay.pdf")) = ("resume") ∧
    (processSinglePDF envC6 [] ("doc/Resume_Jay.pdf")).2 =
      [(("doc_Resume_Jay_1712345_ab12cd"), ("document:Resume_Jay.pdf"))] ∧
    (("document:Resume_Jay.pdf") : String) ≠ ("resume") := by
  refine ⟨by decide, by decide, by decide⟩

/-- C6 (amended): whenever `processSinglePDF` appends a Collection
Record to the Registry, the record is
`(generated collection id, "document:" ++ fileName)`: the source field
is the string `"document:"` followed by the verbatim (not lower-cased)
filename, not the pre-underscore provenance label, which is stored only
in the per-chunk metadata `source` field. -/
theorem processSinglePDF_registry_record_source (env : IngestEnv)
    (registry : List (String × String)) (f : String) :
    (processSinglePDF env registry f).2 = registry ∨
    (processSinglePDF env registry f).2 =
      registry ++ [(generatedName env f, ("document:") ++ basename f)] :=
  processSinglePDF_registry_cases env registry f

/-- A merged search result (`searchAllCollections` lines 331-337):
document text, its distance, its stored metadata, and the source label
and collection id taken from the registry entry.  JavaScript number
distances are modelled as integers, which carry the linear order the
sort relies on. -/
structure SearchHit where
  document : String
  distance : Int
  metadata : ChunkMetadata
  source : String
  collection : String
deriving DecidableEq, Inhabited, Repr

/-- The comparator `(a, b) => a.distance - b.distance` as an order:
ascending distance. -/
def hitLE (a b : SearchHit) : Prop := a.distance ≤ b.distance

instance : DecidableRel hitLE :=
  fun a b => inferInstanceAs (Decidable (a.distance ≤ b.distance))

instance : IsTotal SearchHit hitLE := ⟨fun a b => le_total a.distance b.distance⟩

instance : IsTrans SearchHit hitLE := ⟨fun _ _ _ h1 h2 => le_trans h1 h2⟩

/-- `allResults.sort((a, b) => a.distance - b.distance)`: a stable sort
by ascending distance. -/
def sortHits (l : List SearchHit) : List SearchHit := List.insertionSort hitLE l

/-- Environment of the query path: the registry read (`loadCollectionNames`
reads the registry file), the vector-store collection lookup, the
embedding collaborator, the per-collection nearest-neighbour query
(collection name, embedding, `nResults`), and the generation
collaborator (system prompt, user question). -/
structure SearchEnv where
  loadRegistry : Except String (List (String × String))
  getCollection : String → Except String Unit
  embed : String → Except String Nat
  queryCollection : String → Nat → Nat → Except String (List (String × Int × ChunkMetadata))
  generate : String → String → Except String String

/-- `loadCollectionNames` (lines 93-115): read and parse the registry;
any thrown error is caught and an empty list returned. -/
def loadCollectionNames (env : SearchEnv) : List (String × String) :=
  match env.loadRegistry with
  | Except.error _ => []
  | Except.ok l => l

/-- The `for (const collectionInfo of collections)` loop of
`searchAllCollections` (lines 320-344).  For each registry entry:
look up the collection (a failure skips the entry), call the embedding
collaborator on the query — note that this call sits inside the loop —
then run the nearest-neighbour query; inner failures are caught and the
collection skipped.  Returns the concatenated tagged hits in registry
order together with the number of embedding-collaborator invocations. -/
def searchCollectionsLoop (env : SearchEnv) (query : String) (topK : Nat) :
    List (String × String) → List SearchHit × Nat
  | [] => ([], 0)
  | ci :: rest =>
    let restR := searchCollectionsLoop env query topK rest
    match env.getCollection ci.1 with
    | Except.error _ => restR
    | Except.ok _ =>
      match env.embed query with
      | Except.error _ => (restR.1, restR.2 + 1)
      | Except.ok emb =>
        match env.queryCollection ci.1 emb topK with
        | Except.error _ => (restR.1, restR.2 + 1)
        | Except.ok hits =>
          if hits.isEmpty then (restR.1, restR.2 + 1)
          else
            ((hits.map fun h =>
              { document := h.1
                distance := h.2.1
                metadata := h.2.2
                source := ci.2
                collection := ci.1 }) ++ restR.1, restR.2 + 1)

/-- `searchAllCollections` (lines 313-353): load the registry, run the
per-collection loop, sort every collected hit by ascending distance and
return the first `topK * 2`, paired with the number of
embedding-collaborator invocations the loop performed. -/
def searchAllCollections (env : SearchEnv) (query : String) (topK : Nat) :
    List SearchHit × Nat :=
  ((sortHits (searchCollectionsLoop env query topK (loadCollectionNames env)).1).take
      (topK * 2),
    (searchCollectionsLoop env query topK (loadCollectionNames env)).2)

/-- The result sequence of a federated search. -/
def searchHits (env : SearchEnv) (query : String) (topK : Nat) : List SearchHit :=
  (searchAllCollections env query topK).1

/-- How many times a federated search invokes the embedding collaborator. -/
def searchEmbedCalls (env : SearchEnv) (query : String) (topK : Nat) : Nat :=
  (searchAllCollections env query topK).2

/-- C7 (confirmed): for every behaviour of the registry and of the
vector-store collaborator and every positive `topK`, the sequence
returned by the federated search is sorted by non-decreasing distance
and contains at most `topK * 2` entries. -/
theorem searchHits_sorted_and_bounded (env : SearchEnv) (q : String)
    (topK : Nat) (h : 0 < topK) :
    List.Sorted hitLE (searchHits env q topK) ∧
    (searchHits env q topK).length ≤ topK * 2 := by
  constructor
  · have hs := List.sorted_insertionSort hitLE
      (searchCollectionsLoop env q topK (loadCollectionNames env)).1
    exact List.Pairwise.sublist (List.take_sublist _ _) hs
  · exact List.length_take_le _ _

/-- Search environment with one registered collection returning three
hits with unsorted distances. -/
def envC7 : SearchEnv :=
  { loadRegistry := Except.ok [(("c1"), ("s1"))]
    getCollection := fun _ => Except.ok ()
    embed := fun _ => Except.ok 0
    queryCollection := fun _ _ _ => Except.ok
      [(("passage a"), 7, default), (("passage b"), 3, default),
       (("passage c"), 5, default)]
    generate := fun _ _ => Except.ok ("generated") }

theorem searchHits_sorted_and_bounded_witness :
    (0 : Nat) < 3 ∧
    (List.Sorted hitLE (searchHits envC7 ("q") 3) ∧
      (searchHits envC7 ("q") 3).length ≤ 3 * 2) :=
  ⟨by decide, searchHits_sorted_and_bounded envC7 ("q") 3 (by decide)⟩

lemma searchCollectionsLoop_calls (env : SearchEnv) (q : String) (topK : Nat)
    (entries : List (String × String))
    (h : ∀ e ∈ entries, env.getCollection e.1 = Except.ok ()) :
    (searchCollectionsLoop env q topK entries).2 = entries.length := by
  induction entries with
  | nil => rfl
  | cons ci rest ih =>
    have hci := h ci (List.mem_cons_self ci rest)
    have hrest := ih (fun e he => h e (List.mem_cons_of_mem ci he))
    cases hev : env.embed q with
    | error e => simp [searchCollectionsLoop, hci, hev, hrest]
    | ok emb =>
      cases hq : env.queryCollection ci.1 emb topK with
      | error e => simp [searchCollectionsLoop, hci, hev, hq, hrest]
      | ok hits =>
        by_cases hemp : hits.isEmpty
        · simp [searchCollectionsLoop, hci, hev, hq, hemp, hrest]
        · simp [searchCollectionsLoop, hci, hev, hq, hemp, hrest]

/-- C1 (amended): the query embedding is not computed once per federated
search but once per collection: when the registry read yields `entries`
and every collection lookup succeeds, the embedding collaborator is
invoked exactly `entries.length` times, each per-collection query using
the embedding computed in its own loop iteration (the same value for
the deterministic collaborator of the model, but one invocation per
collection rather than one overall). -/
theorem searchAllCollections_embedCalls_per_collection (env : SearchEnv)
    (q : String) (topK : Nat) (entries : List (String × String))
    (hreg : env.loadRegistry = Except.ok entries)
    (hget : ∀ e ∈ entries, env.getCollection e.1 = Except.ok ()) :
    searchEmbedCalls env q topK = entries.length := by
  simp only [searchEmbedCalls, searchAllCollections, loadCollectionNames, hreg]
  exact searchCollectionsLoop_calls env q topK entries hget

/-- Search environment with two registered collections, every
collaborator succeeding. -/
def envC1 : SearchEnv :=
  { loadRegistry := Except.ok [(("c1"), ("s1")), (("c2"), ("s2"))]
    getCollection := fun _ => Except.ok ()
    embed := fun _ => Except.ok 0
    queryCollection := fun _ _ _ => Except.ok []
    generate := fun _ _ => Except.ok ("generated") }

/-- C1 (counterexample): with a non-empty registry of two collections
and all collaborators succeeding, a federated search invokes the
embedding collaborator twice — once per collection — and not exactly
once as the claim requires. -/
theorem searchAllCollections_embedding_recomputed_counterexample :
    loadCollectionNames envC1 ≠ [] ∧
    (loadCollectionNames envC1).length = 2 ∧
    searchEmbedCalls envC1 ("q") 3 = 2 ∧
    searchEmbedCalls envC1 ("q") 3 ≠ 1 := by
  refine ⟨by decide, by decide, by decide, by decide⟩

theorem searchAllCollections_embedCalls_per_collection_witness :
    searchEmbedCalls envC1 ("q") 3 = 2 :=
  searchAllCollections_embedCalls_per_collection envC1 ("q") 3
    [(("c1"), ("s1")), (("c2"), ("s2"))] rfl (fun e he => rfl)

/-- An apostrophe, spliced into the literal messages of the source. -/
def apos : String := String.singleton (Char.ofNat 39)

/-- The fixed fallback of `handleUserQuestion` when the search returns
no results. -/
def noInfoMessage : String :=
  ("I couldn") ++ apos ++
    ("t find relevant information in the portfolio documents to answer your question.")

/-- The fixed apology `handleUserQuestion` returns when its body throws. -/
def apologyMessage : String :=
  ("I") ++ apos ++ ("m sorry, I encountered an error while processing your question.")

/-- One labelled context block of `generateResponse`:
`Source N (source):\ntext`. -/
def contextBlock (idx : Nat) (r : SearchHit) : String :=
  ("Source ") ++ toString (idx + 1) ++ (" (") ++ r.source ++ ("):\n") ++ r.document

/-- The context assembly of `generateResponse` (lines 357-366): empty
when there are no results, otherwise the labelled blocks joined by a
blank line. -/
def contextText (results : List SearchHit) : String :=
  if results.isEmpty then ("")
  else joinWith ("\n\n") (results.enum.map (fun p => contextBlock p.1 p.2))

/-- The fixed instruction template of `generateResponse` up to the
interpolated context block. -/
def systemPromptStart : String :=
  ("You are an intelligent portfolio assistant for Jay Patel, helping visitors learn about Jay") ++
  apos ++
  ("s professional journey, projects, and expertise.\n\n**Your Voice**\n- Speak in first person as if you ARE Jay: \"I have experience in...\" not \"Jay has experience in...\"\n- Be warm, professional, and confident about your accomplishments\n- Always give a natural human touch to responses so they feel conversational and not robotic\n\n**Response Guidelines:**\n- Always answer in a maximum of 3–4 sentences\n- Always answer in paragraph form (not list format)\n- Provide concise, specific details directly addressing the question\n\n(Examples of specificity)  \n1) If a user asks about my education, only mention degree, school, and duration — don’t list courses unless specifically requested.  \n2) If a user asks about my experience background, only mention companies, roles, and duration — don’t describe responsibilities unless the question asks for them.  \n\n- Apply this principle of answering *only what is asked* to all responses\n- Do not elaborate beyond the question’s scope\n- If a question involves multiple subjects (e.g., different companies, projects, or education), provide a clear high-level summary in paragraph form, keeping it natural and easy to read\n- Do not add generic closing statements or invitations for more questions\n- Never use “--” for bulleting or emphasis\n\n**When Information is Limited:**\n- Say: \"As of now I don’t have any knowledge about this, I am really sorry for that.\"\n- Don’t fabricate or add unrelated details\n\nContext from my portfolio materials:  \n")

/-- The tail of the instruction template after the context block. -/
def systemPromptEnd : String :=
  ("\n\nRemember: Respond as if you ARE Jay Patel discussing your own experience and expertise.")

/-- The complete system prompt for a given context block. -/
def systemPromptFor (ctx : String) : String :=
  systemPromptStart ++ ctx ++ systemPromptEnd

/-- `generateResponse` (lines 355-418): build the context and system
prompt and call the generation collaborator once; its failure is
rethrown to the caller. -/
def generateResponseE (env : SearchEnv) (userQuestion : String)
    (relevantResults : List SearchHit) : Except String String :=
  env.generate (systemPromptFor (contextText relevantResults)) userQuestion

/-- `handleUserQuestion` (lines 420-434): search with the default
`topK = 3`; return the fixed fallback when nothing is found; otherwise
generate, catching any thrown error into the fixed apology.  The model
is a total function into `String`: every collaborator failure inside
the search loop has already been absorbed there, and a generation
failure is caught here. -/
def handleUserQuestion (env : SearchEnv) (question : String) : String :=
  if (searchHits env question 3).isEmpty then noInfoMessage
  else
    match generateResponseE env question (searchHits env question 3) with
    | Except.error _ => apologyMessage
    | Except.ok out => out

/-- Result of the backend `POST /api/ask` handler. -/
inductive AskResult where
  | ok (answer : String)
  | badRequest
deriving DecidableEq, Repr

/-- The `app.post("/api/ask")` handler of `api-server.js`: reject a
missing, non-string (modelled as `none`) or empty question with a 400,
otherwise answer with `handleUserQuestion`, which never throws. -/
def apiAsk (env : SearchEnv) (question : Option String) : AskResult :=
  match question with
  | none => AskResult.badRequest
  | some q =>
    if q = ("") then AskResult.badRequest
    else AskResult.ok (handleUserQuestion env q)

/-- Result of the frontend `POST /api/chat` route. -/
inductive ChatResult where
  | ok (response : String)
  | badRequest
  | internalError
deriving DecidableEq, Repr

/-- The `POST` handler of `route.js` lines 3-45 composed with the
backend it fetches: reject a missing, empty or whitespace-only question
with a 400 before any backend call; otherwise forward the question to
`/api/ask` and wrap the returned answer as `{ response }`; a non-ok
backend status becomes a 500.  The `Bool` component records whether the
backend — which performs all search and generation activity — was
invoked at all. -/
def POSTchat (env : SearchEnv) (question : Option String) : ChatResult × Bool :=
  match question with
  | none => (ChatResult.badRequest, false)
  | some q =>
    if isBlank q then (ChatResult.badRequest, false)
    else
      match apiAsk env (some q) with
      | AskResult.ok ans => (ChatResult.ok ans, true)
      | AskResult.badRequest => (ChatResult.internalError, true)

/-- C10 (amended): `handleUserQuestion` is total — it returns a string
for every collaborator behaviour and never propagates an exception —
and returns the fixed "no information" fallback exactly when the search
comes back empty (which is also what happens when embedding or
vector-store failures cause every collection to be skipped), the fixed
apology exactly when the search is non-empty and the generation
collaborator fails (the only collaborator failure that reaches its
catch), and the generator's output verbatim otherwise. -/
theorem handleUserQuestion_total_cases (env : SearchEnv) (q : String) :
    (searchHits env q 3 = [] → handleUserQuestion env q = noInfoMessage) ∧
    (∀ e, searchHits env q 3 ≠ [] →
      generateResponseE env q (searchHits env q 3) = Except.error e →
      handleUserQuestion env q = apologyMessage) ∧
    (∀ out, searchHits env q 3 ≠ [] →
      generateResponseE env q (searchHits env q 3) = Except.ok out →
      handleUserQuestion env q = out) := by
  refine ⟨?_, ?_, ?_⟩
  · intro hempty
    simp [handleUserQuestion, hempty]
  · intro e hne hgen
    have hie : (searchHits env q 3).isEmpty = false := by
      cases hl : searchHits env q 3 with
      | nil => exact absurd hl hne
      | cons a l => simp [hl]
    simp [handleUserQuestion, hie, hgen]
  · intro out hne hgen
    have hie : (searchHits env q 3).isEmpty = false := by
      cases hl : searchHits env q 3 with
      | nil => exact absurd hl hne
      | cons a l => simp [hl]
    simp [handleUserQuestion, hie, hgen]

theorem handleUserQuestion_total_cases_witness :
    handleUserQuestion envC7 ("q") = ("generated") :=
  (handleUserQuestion_total_cases envC7 ("q")).2.2 ("generated") (by decide) rfl

/-- Search environment in which the embedding collaborator always
throws while everything else succeeds. -/
def envC10 : SearchEnv :=
  { loadRegistry := Except.ok [(("c1"), ("s1"))]
    getCollection := fun _ => Except.ok ()
    embed := fun _ => Except.error ("embedding service down")
    queryCollection := fun _ _ _ => Except.ok []
    generate := fun _ _ => Except.ok ("generated") }

/-- C10 (counterexample): with one registered collection the embedding
collaborator is invoked and throws, so by the claim the apology message
should be returned; the code catches that failure inside the search
loop, skips the collection, finds no results and returns the
"no information" fallback instead of the apology. -/
theorem handleUserQuestion_collaborator_throw_counterexample :
    envC10.embed ("q") = Except.error ("embedding service down") ∧
    searchEmbedCalls envC10 ("q") 3 = 1 ∧
    handleUserQuestion envC10 ("q") = noInfoMessage ∧
    noInfoMessage ≠ apologyMessage := by
  refine ⟨by decide, by decide, by decide, by decide⟩

/-- C8 (confirmed): at the question-answering entry point (the
`POST /api/chat` route, whose success body is `{ response }`), a
missing, empty or whitespace-only question is rejected with a
400-equivalent before the backend — which performs all search and
generation — is ever invoked; a question that is not whitespace-only
yields a success response whose body is exactly the Composer's output
`handleUserQuestion env q`. -/
theorem POSTchat_validation_and_success (env : SearchEnv) (q : String) :
    POSTchat env none = (ChatResult.badRequest, false) ∧
    (isBlank q = true → POSTchat env (some q) = (ChatResult.badRequest, false)) ∧
    (isBlank q = false →
      POSTchat env (some q) = (ChatResult.ok (handleUserQuestion env q), true)) := by
  refine ⟨rfl, ?_, ?_⟩
  · intro hb
    simp [POSTchat, hb]
  · intro hb
    have hq : q ≠ ("") := by
      intro h0
      subst h0
      simp [isBlank] at hb
    simp [POSTchat, hb, apiAsk, hq]

theorem POSTchat_validation_and_success_witness :
    (isBlank ("   ") = true ∧
      POSTchat envC7 (some ("   ")) = (ChatResult.badRequest, false)) ∧
    (isBlank ("what is your education?") = false ∧
      POSTchat envC7 (some ("what is your education?")) =
        (ChatResult.ok (handleUserQuestion envC7 ("what is your education?")), true)) :=
  ⟨⟨by decide, (POSTchat_validation_and_success envC7 ("   ")).2.1 (by decide)⟩,
   ⟨by decide, (POSTchat_validation_and_success envC7 ("what is your education?")).2.2 (by decide)⟩⟩
